import Mathlib

/-!
Verification of the markdown-table core of `src/markdown_table.py`.

Python strings are embedded as lists of characters (`Str`), so that character
length, padding and joining are ordinary list operations.  Cells are already
strings in every claim, so the `str(...)` coercion of the source
(line 127-128, mapping `None` to the empty string) is the identity here.
-/

set_option autoImplicit false

namespace MarkdownTable

/-- Python strings, embedded as lists of characters. -/
abbrev Str := List Char

/-- Python `str.ljust`: pad on the right with spaces up to width `w`
(returns the string unchanged when it is already at least `w` long). -/
def ljust (s : Str) (w : Nat) : Str :=
  s ++ List.replicate (w - s.length) ' '

/-- Python `str.rjust`: pad on the left with spaces up to width `w`. -/
def rjust (s : Str) (w : Nat) : Str :=
  List.replicate (w - s.length) ' ' ++ s

/-- Python `str.center`: CPython computes the left margin as
`marg / 2 + (marg AND width AND 1)`, that is, `marg / 2` plus one extra
space exactly when both the total margin and the width are odd. -/
def center (s : Str) (w : Nat) : Str :=
  let marg := w - s.length
  let lpad := marg / 2 + (if marg % 2 = 1 ∧ w % 2 = 1 then 1 else 0)
  List.replicate lpad ' ' ++ s ++ List.replicate (marg - lpad) ' '

/-- Python `sep.join(parts)`. -/
def joinSep (sep : Str) : List Str → Str
  | [] => []
  | [s] => s
  | s :: t :: rest => s ++ sep ++ joinSep sep (t :: rest)

/-- Column widths, source lines 131-137: start from the header lengths and
take the maximum with every cell length of the column, a missing cell
(row shorter than the header) counting as the empty string. -/
def col_widths (headers : List Str) (rows : List (List Str)) : List Nat :=
  (List.range headers.length).map (fun i =>
    rows.foldl (fun w r => max w (r.getD i []).length) (headers.getD i []).length)

/-- Cell padding of `format_row`, source lines 143-152: right-justify for
`"right"`, center for `"center"`, left-justify otherwise; a column index
beyond `aligns` falls back to `"left"`. -/
def format_cell (align : Str) (w : Nat) (cell : Str) : Str :=
  if align = "right".toList then rjust cell w
  else if align = "center".toList then center cell w
  else ljust cell w

/-- The padded cells of one rendered row, source lines 141-152. -/
def format_row_parts (cw : List Nat) (aligns : List Str) (row : List Str) : List Str :=
  (List.range cw.length).map (fun i =>
    format_cell (aligns.getD i "left".toList) (cw.getD i 0) (row.getD i []))

/-- Source `format_row`, line 153: wrap the padded cells in pipes. -/
def format_row (cw : List Nat) (aligns : List Str) (row : List Str) : Str :=
  "| ".toList ++ joinSep " | ".toList (format_row_parts cw aligns row) ++ " |".toList

/-- Source `align_pattern`, lines 156-170: the alignment-row token for one
column, the width first clamped to a minimum of 1. -/
def align_pattern (align : Str) (w : Nat) : Str :=
  let w := if w < 1 then 1 else w
  if align = "right".toList then
    if w = 1 then "-:".toList else List.replicate (w - 1) '-' ++ ":".toList
  else if align = "center".toList then
    if w ≤ 2 then ":-:".toList else ":".toList ++ List.replicate (w - 2) '-' ++ ":".toList
  else
    if w = 1 then ":".toList else ":".toList ++ List.replicate (w - 1) '-'

/-- The alignment-row tokens, source line 175: one per column, a column
index beyond `aligns` falling back to `"left"`. -/
def align_row_cells (cw : List Nat) (aligns : List Str) : List Str :=
  (List.range cw.length).map (fun i => align_pattern (aligns.getD i "left".toList) (cw.getD i 0))

/-- The alignment row line, source line 176. -/
def align_row (cw : List Nat) (aligns : List Str) : Str :=
  "| ".toList ++ joinSep " | ".toList (align_row_cells cw aligns) ++ " |".toList

/-- The lines of the table, source lines 173-178: header row, alignment
row, then one line per data row. -/
def table_lines (headers : List Str) (rows : List (List Str)) (aligns : List Str) : List Str :=
  let cw := col_widths headers rows
  format_row cw aligns headers :: align_row cw aligns :: rows.map (format_row cw aligns)

/-- Source `generate_markdown_table`, line 180: join the lines with a line
break and append a trailing line break. -/
def generate_markdown_table (headers : List Str) (rows : List (List Str)) (aligns : List Str) : Str :=
  joinSep "\n".toList (table_lines headers rows aligns) ++ "\n".toList

/-- Row normalization, source lines 56-62: append empty cells while the row
is shorter than the header count, then truncate to the header count. -/
def normalize_row (col_count : Nat) (r : List Str) : List Str :=
  (r ++ List.replicate (col_count - r.length) []).take col_count

/-- Normalization of all rows, source lines 54-63. -/
def normalize_rows (headers : List Str) (rows : List (List Str)) : List (List Str) :=
  rows.map (normalize_row headers.length)

/-- The first line of the text: what Python `text.splitlines()[0]` yields
for newline-separated text, and the whole text when it has no line break. -/
def header_line (text : Str) : Str :=
  text.takeWhile (fun c => c ≠ '\n')

/-- Fallback delimiter detection, source lines 27-34: scan the first line
for a comma, a tab, a semicolon and a pipe in that order; the first one
present wins, and a comma is the default. -/
def fallback_delimiter (text : Str) : Char :=
  let hl := header_line text
  if ',' ∈ hl then ','
  else if '\t' ∈ hl then '\t'
  else if ';' ∈ hl then ';'
  else if '|' ∈ hl then '|'
  else ','

/-- Number of pipe-delimited fields of a rendered line: the pieces strictly
between consecutive pipe characters, one fewer than the pipe count. -/
def numFields (s : Str) : Nat :=
  s.count '|' - 1

theorem ljust_length (s : Str) (w : Nat) : (ljust s w).length = max s.length w := by
  simp only [ljust, List.length_append, List.length_replicate]
  omega

theorem rjust_length (s : Str) (w : Nat) : (rjust s w).length = max s.length w := by
  simp only [rjust, List.length_append, List.length_replicate]
  omega

theorem center_length (s : Str) (w : Nat) : (center s w).length = max s.length w := by
  simp only [center, List.length_append, List.length_replicate]
  split
  all_goals omega

theorem format_cell_length (al : Str) (w : Nat) (cell : Str) :
    (format_cell al w cell).length = max cell.length w := by
  unfold format_cell
  split
  · exact rjust_length cell w
  · split
    · exact center_length cell w
    · exact ljust_length cell w

theorem joinSep_length (sep : Str) (l : List Str) :
    (joinSep sep l).length = (l.map List.length).sum + sep.length * (l.length - 1) := by
  induction l with
  | nil => simp [joinSep]
  | cons s rest ih =>
    cases rest with
    | nil => simp [joinSep]
    | cons t r2 =>
      simp only [joinSep, List.length_append, List.map_cons, List.sum_cons,
        List.length_cons, Nat.add_sub_cancel, Nat.mul_succ] at ih ⊢
      omega

theorem joinSep_count (sep : Str) (c : Char) (l : List Str) :
    (joinSep sep l).count c = (l.map (List.count c)).sum + sep.count c * (l.length - 1) := by
  induction l with
  | nil => simp [joinSep]
  | cons s rest ih =>
    cases rest with
    | nil => simp [joinSep]
    | cons t r2 =>
      simp only [joinSep, List.count_append, List.map_cons, List.sum_cons,
        List.length_cons, Nat.add_sub_cancel, Nat.mul_succ] at ih ⊢
      omega

theorem joinSep_nl_flatten (s : Str) (l : List Str) :
    joinSep "\n".toList (s :: l) ++ "\n".toList =
      ((s :: l).map (fun t => t ++ "\n".toList)).flatten := by
  induction l generalizing s with
  | nil => simp [joinSep]
  | cons t r2 ih =>
    simp only [joinSep, List.map_cons, List.flatten_cons] at ih ⊢
    rw [← ih t]
    simp [List.append_assoc]

theorem getD_map_range {α : Type} (n : Nat) (f : Nat → α) (d : α) {i : Nat} (h : i < n) :
    ((List.range n).map f).getD i d = f i := by
  rw [List.getD_eq_getElem?_getD, List.getElem?_map, List.getElem?_range h]
  rfl

theorem map_getD_range_self {α : Type} (l : List α) (d : α) :
    (List.range l.length).map (fun i => l.getD i d) = l := by
  induction l with
  | nil => simp
  | cons x xs ih =>
    rw [List.length_cons, List.range_succ_eq_map, List.map_cons, List.map_map]
    have hc : ((fun i => (x :: xs).getD i d) ∘ Nat.succ) = fun i => xs.getD i d := by
      funext i
      simp
    rw [List.getD_cons_zero, hc, ih]

theorem getD_default_or_mem {α : Type} (l : List α) (i : Nat) (d : α) :
    l.getD i d = d ∨ l.getD i d ∈ l := by
  induction l generalizing i with
  | nil => left; simp
  | cons x xs ih =>
    cases i with
    | zero => right; simp
    | succ n =>
      rw [List.getD_cons_succ]
      rcases ih n with h | h
      · left; exact h
      · right; exact List.mem_cons_of_mem x h

theorem foldl_max_max {α : Type} (f : α → Nat) (a : Nat) (l : List α) :
    l.foldl (fun w r => max w (f r)) a = max a ((l.map f).foldr max 0) := by
  induction l generalizing a with
  | nil => simp
  | cons x xs ih =>
    simp only [List.foldl_cons, List.map_cons, List.foldr_cons]
    rw [ih]
    omega

theorem col_widths_length (headers : List Str) (rows : List (List Str)) :
    (col_widths headers rows).length = headers.length := by
  simp [col_widths]

theorem col_widths_getD (headers : List Str) (rows : List (List Str)) {i : Nat}
    (hi : i < headers.length) :
    (col_widths headers rows).getD i 0 =
      rows.foldl (fun w r => max w (r.getD i []).length) (headers.getD i []).length := by
  unfold col_widths
  exact getD_map_range headers.length _ 0 hi

theorem header_le_col_widths (headers : List Str) (rows : List (List Str)) {i : Nat}
    (hi : i < headers.length) :
    (headers.getD i []).length ≤ (col_widths headers rows).getD i 0 := by
  rw [col_widths_getD headers rows hi, foldl_max_max]
  omega

theorem foldr_max_of_mem {α : Type} (f : α → Nat) {l : List α} {x : α} (hx : x ∈ l) :
    f x ≤ (l.map f).foldr max 0 := by
  induction l with
  | nil => cases hx
  | cons y ys ih =>
    simp only [List.map_cons, List.foldr_cons]
    rcases List.mem_cons.mp hx with h | h
    · subst h; omega
    · have := ih h; omega

theorem cell_le_col_widths (headers : List Str) (rows : List (List Str)) {i : Nat}
    (hi : i < headers.length) {r : List Str} (hr : r ∈ rows) :
    (r.getD i []).length ≤ (col_widths headers rows).getD i 0 := by
  rw [col_widths_getD headers rows hi, foldl_max_max]
  have h2 : (r.getD i []).length ≤ ((rows.map (fun r => (r.getD i []).length)).foldr max 0) :=
    foldr_max_of_mem (fun r => (r.getD i []).length) hr
  omega

theorem row_cell_le_col_widths (headers : List Str) (rows : List (List Str)) {row : List Str}
    (hrow : row = headers ∨ row ∈ rows) {i : Nat} (hi : i < headers.length) :
    (row.getD i []).length ≤ (col_widths headers rows).getD i 0 := by
  rcases hrow with h | h
  · rw [h]; exact header_le_col_widths headers rows hi
  · exact cell_le_col_widths headers rows hi h

theorem format_row_parts_getD (cw : List Nat) (aligns : List Str) (row : List Str) {i : Nat}
    (hi : i < cw.length) :
    (format_row_parts cw aligns row).getD i [] =
      format_cell (aligns.getD i "left".toList) (cw.getD i 0) (row.getD i []) := by
  unfold format_row_parts
  exact getD_map_range cw.length _ [] hi

theorem align_row_cells_getD (cw : List Nat) (aligns : List Str) {i : Nat} (hi : i < cw.length) :
    (align_row_cells cw aligns).getD i [] =
      align_pattern (aligns.getD i "left".toList) (cw.getD i 0) := by
  unfold align_row_cells
  exact getD_map_range cw.length _ [] hi

theorem map_length_format_row_parts (headers : List Str) (rows : List (List Str))
    (aligns : List Str) (row : List Str) (hrow : row = headers ∨ row ∈ rows) :
    (format_row_parts (col_widths headers rows) aligns row).map List.length =
      col_widths headers rows := by
  unfold format_row_parts
  rw [List.map_map]
  have hlen := col_widths_length headers rows
  have hcg : ∀ i ∈ List.range (col_widths headers rows).length,
      (List.length ∘ fun i => format_cell (aligns.getD i "left".toList)
        ((col_widths headers rows).getD i 0) (row.getD i [])) i =
      (fun i => (col_widths headers rows).getD i 0) i := by
    intro i hi
    have hi2 : i < headers.length := by
      rw [← hlen]
      exact List.mem_range.mp hi
    simp only [Function.comp_apply]
    rw [format_cell_length]
    have := row_cell_le_col_widths headers rows hrow hi2
    omega
  rw [List.map_congr_left hcg]
  exact map_getD_range_self _ 0

theorem format_row_parts_length (cw : List Nat) (aligns : List Str) (row : List Str) :
    (format_row_parts cw aligns row).length = cw.length := by
  simp [format_row_parts]

theorem format_row_length_eq (headers : List Str) (rows : List (List Str)) (aligns : List Str)
    (row : List Str) (hrow : row = headers ∨ row ∈ rows) (hc : 0 < headers.length) :
    (format_row (col_widths headers rows) aligns row).length =
      1 + 3 * headers.length + (col_widths headers rows).sum := by
  unfold format_row
  rw [List.length_append, List.length_append, joinSep_length,
      map_length_format_row_parts headers rows aligns row hrow,
      format_row_parts_length, col_widths_length]
  have h1 : ("| ".toList).length = 2 := rfl
  have h2 : (" |".toList).length = 2 := rfl
  have h3 : (" | ".toList).length = 3 := rfl
  rw [h1, h2, h3]
  omega

theorem count_replicate_ne (c b : Char) (n : Nat) (h : c ≠ b) :
    (List.replicate n b).count c = 0 := by
  rw [List.count_replicate, if_neg]
  simp only [beq_iff_eq]
  exact fun hbc => h hbc.symm

theorem count_format_cell (al : Str) (w : Nat) (cell : Str) {c : Char} (hc : c ≠ ' ') :
    (format_cell al w cell).count c = cell.count c := by
  unfold format_cell
  split
  · rw [rjust, List.count_append, count_replicate_ne c ' ' _ hc]
    omega
  · split
    · rw [center, List.count_append, List.count_append,
        count_replicate_ne c ' ' _ hc, count_replicate_ne c ' ' _ hc]
      omega
    · rw [ljust, List.count_append, count_replicate_ne c ' ' _ hc]
      omega

theorem count_pipe_align_pattern (al : Str) (w : Nat) : (align_pattern al w).count '|' = 0 := by
  have hdash : ('|' : Char) ≠ '-' := by decide
  simp only [align_pattern]
  repeat' split
  all_goals
    first
    | decide
    | (rw [List.count_append, count_replicate_ne _ _ _ hdash]; decide)
    | (rw [List.count_append, List.count_append, count_replicate_ne _ _ _ hdash]; decide)

theorem count_pipe_line (parts : List Str) (hne : parts ≠ [])
    (h : ∀ p ∈ parts, p.count '|' = 0) :
    ("| ".toList ++ joinSep " | ".toList parts ++ " |".toList).count '|' = parts.length + 1 := by
  rw [List.count_append, List.count_append, joinSep_count]
  have h0 : (parts.map (List.count '|')).sum = 0 := by
    apply List.sum_eq_zero
    intro x hx
    rcases List.mem_map.mp hx with ⟨p, hp, hpe⟩
    rw [← hpe]
    exact h p hp
  rw [h0]
  have h1 : ("| ".toList).count '|' = 1 := by decide
  have h2 : (" |".toList).count '|' = 1 := by decide
  have h3 : (" | ".toList).count '|' = 1 := by decide
  rw [h1, h2, h3]
  have h4 : parts.length ≠ 0 := fun he => hne (List.length_eq_zero.mp he)
  omega

theorem format_cell_not_right_center (al : Str) (w : Nat) (cell : Str)
    (h1 : al ≠ "right".toList) (h2 : al ≠ "center".toList) :
    format_cell al w cell = ljust cell w := by
  unfold format_cell
  rw [if_neg h1, if_neg h2]

theorem align_pattern_not_right_center (al : Str) (w : Nat)
    (h1 : al ≠ "right".toList) (h2 : al ≠ "center".toList) :
    align_pattern al w = align_pattern "left".toList w := by
  simp only [align_pattern]
  rw [if_neg h1, if_neg h2, if_neg (by decide : ¬("left".toList = "right".toList)),
      if_neg (by decide : ¬("left".toList = "center".toList))]

theorem align_pattern_clamp (al : Str) : align_pattern al 0 = align_pattern al 1 := rfl

theorem align_pattern_left_eq (w : Nat) (hw : 1 ≤ w) :
    align_pattern "left".toList w = ':' :: List.replicate (w - 1) '-' := by
  cases w with
  | zero => omega
  | succ n =>
    cases n with
    | zero => decide
    | succ m =>
      simp only [align_pattern]
      rw [if_neg (by omega : ¬(m + 2 < 1)),
        if_neg (by decide : ¬("left".toList = "right".toList)),
        if_neg (by decide : ¬("left".toList = "center".toList)),
        if_neg (by omega : ¬(m + 2 = 1))]
      rfl

theorem align_pattern_right_eq (w : Nat) (hw : 2 ≤ w) :
    align_pattern "right".toList w = List.replicate (w - 1) '-' ++ [':'] := by
  cases w with
  | zero => omega
  | succ n =>
    cases n with
    | zero => omega
    | succ m =>
      simp only [align_pattern]
      rw [if_neg (by omega : ¬(m + 2 < 1)), if_pos trivial, if_neg (by omega : ¬(m + 2 = 1))]
      rfl

theorem align_pattern_center_eq (w : Nat) (hw : 3 ≤ w) :
    align_pattern "center".toList w = ':' :: (List.replicate (w - 2) '-' ++ [':']) := by
  cases w with
  | zero => omega
  | succ n =>
    cases n with
    | zero => omega
    | succ m =>
      simp only [align_pattern]
      rw [if_neg (by omega : ¬(m + 2 < 1)),
        if_neg (by decide : ¬("center".toList = "right".toList)), if_pos trivial,
        if_neg (by omega : ¬(m + 2 ≤ 2))]
      rfl

theorem align_pattern_center_small (w : Nat) (hw : w ≤ 2) :
    align_pattern "center".toList w = [':', '-', ':'] := by
  interval_cases w
  all_goals decide

/-- Claim C1: for every headers and rows, the computed width of column `i` equals
the maximum of the header length and of all cell lengths of that column, every
content cell of that column is padded to exactly that width, and the clamp to a
minimum width of 1 happens only in the alignment row (the alignment token of a
zero-width column equals that of a width-1 column, while content cells keep the
unclamped width). -/
theorem claim_C1 (headers : List Str) (rows : List (List Str)) (aligns : List Str) (i : Nat)
    (hi : i < headers.length) :
    (col_widths headers rows).getD i 0 =
      max (headers.getD i []).length ((rows.map (fun r => (r.getD i []).length)).foldr max 0)
    ∧ (∀ row, row = headers ∨ row ∈ rows →
        ((format_row_parts (col_widths headers rows) aligns row).getD i []).length =
          (col_widths headers rows).getD i 0)
    ∧ (∀ al : Str, align_pattern al 0 = align_pattern al 1) := by
  refine ⟨?_, ?_, fun al => align_pattern_clamp al⟩
  · rw [col_widths_getD headers rows hi, foldl_max_max]
  · intro row hrow
    have hcw : i < (col_widths headers rows).length := by
      rw [col_widths_length]
      exact hi
    rw [format_row_parts_getD _ _ _ hcw, format_cell_length]
    have := row_cell_le_col_widths headers rows hrow hi
    omega

theorem claim_C1_witness :
    0 < List.length ["ab".toList] ∧
    (col_widths ["ab".toList] [["x".toList]]).getD 0 0 =
      max ("ab".toList).length
        (([["x".toList]].map (fun r => (r.getD 0 []).length)).foldr max 0) ∧
    ((format_row_parts (col_widths ["ab".toList] [["x".toList]]) [] ["ab".toList]).getD
        0 []).length =
      (col_widths ["ab".toList] [["x".toList]]).getD 0 0 :=
  ⟨by decide,
    (claim_C1 ["ab".toList] [["x".toList]] [] 0 (by decide)).1,
    (claim_C1 ["ab".toList] [["x".toList]] [] 0 (by decide)).2.1 ["ab".toList] (Or.inl rfl)⟩

/-- Claim C2: the alignment-row token for every width `w ≥ 1` is, for left,
a colon followed by `w - 1` dashes; for right, `w - 1` dashes followed by a
colon except that `w = 1` yields dash-colon; for center, colon-dash-colon when
`w ≤ 2` and otherwise a colon, `w - 2` dashes and a colon; the five concrete
examples of the spec hold; and a width below 1 is first clamped to 1. -/
theorem claim_C2 (al : Str) (w : Nat) (hw : 1 ≤ w) :
    align_pattern "left".toList w = ':' :: List.replicate (w - 1) '-'
    ∧ (2 ≤ w → align_pattern "right".toList w = List.replicate (w - 1) '-' ++ [':'])
    ∧ align_pattern "right".toList 1 = ['-', ':']
    ∧ (w ≤ 2 → align_pattern "center".toList w = [':', '-', ':'])
    ∧ (3 ≤ w → align_pattern "center".toList w = ':' :: (List.replicate (w - 2) '-' ++ [':']))
    ∧ align_pattern al 0 = align_pattern al 1
    ∧ align_pattern "left".toList 5 = ":----".toList
    ∧ align_pattern "right".toList 5 = "----:".toList
    ∧ align_pattern "center".toList 5 = ":---:".toList
    ∧ align_pattern "center".toList 2 = ":-:".toList
    ∧ align_pattern "right".toList 1 = "-:".toList :=
  ⟨align_pattern_left_eq w hw, fun h => align_pattern_right_eq w h, by decide,
    fun h => align_pattern_center_small w h, fun h => align_pattern_center_eq w h,
    align_pattern_clamp al, by decide, by decide, by decide, by decide, by decide⟩

theorem claim_C2_witness :
    1 ≤ 5 ∧ align_pattern "left".toList 5 = ":----".toList :=
  ⟨by decide, (claim_C2 "left".toList 5 (by decide)).2.2.2.2.2.2.1⟩

/-- Claim C3 counterexample: centering the two-character cell `ab` in a column
of width 5 puts two of the three padding spaces on the left and one on the
right, while the claim says the odd extra space always goes to the right. -/
theorem claim_C3_counterexample :
    center "ab".toList 5 = "  ab ".toList ∧ center "ab".toList 5 ≠ " ab  ".toList := by
  decide

/-- Claim C3 as amended: when a cell is centered in a wider column the padding
spaces are split as evenly as possible, and when the total padding is odd the
extra space goes to the right if the column width is even and to the left if
the column width is odd (the CPython `str.center` rule). -/
theorem claim_C3_amended (cell : Str) (w : Nat) (hw : cell.length < w) :
    ∃ lp rp, center cell w = List.replicate lp ' ' ++ cell ++ List.replicate rp ' '
      ∧ lp + rp = w - cell.length
      ∧ ((w - cell.length) % 2 = 0 → lp = rp)
      ∧ ((w - cell.length) % 2 = 1 → w % 2 = 0 → rp = lp + 1)
      ∧ ((w - cell.length) % 2 = 1 → w % 2 = 1 → lp = rp + 1) := by
  refine ⟨(w - cell.length) / 2 +
      (if (w - cell.length) % 2 = 1 ∧ w % 2 = 1 then 1 else 0),
    (w - cell.length) -
      ((w - cell.length) / 2 + (if (w - cell.length) % 2 = 1 ∧ w % 2 = 1 then 1 else 0)),
    rfl, ?_, ?_, ?_, ?_⟩
  all_goals split_ifs with h
  all_goals omega

theorem claim_C3_witness :
    List.length ("a".toList) < 4 ∧
    (∃ lp rp, center "a".toList 4 = List.replicate lp ' ' ++ "a".toList ++ List.replicate rp ' '
      ∧ lp + rp = 4 - List.length ("a".toList)
      ∧ ((4 - List.length ("a".toList)) % 2 = 0 → lp = rp)
      ∧ ((4 - List.length ("a".toList)) % 2 = 1 → 4 % 2 = 0 → rp = lp + 1)
      ∧ ((4 - List.length ("a".toList)) % 2 = 1 → 4 % 2 = 1 → lp = rp + 1)) :=
  ⟨by decide, claim_C3_amended "a".toList 4 (by decide)⟩

theorem align_row_cells_length (cw : List Nat) (aligns : List Str) :
    (align_row_cells cw aligns).length = cw.length := by
  simp [align_row_cells]

theorem format_row_parts_pipe_free (headers : List Str) (rows : List (List Str))
    (aligns : List Str) (row : List Str) (hfree : ∀ cell ∈ row, '|' ∉ cell) :
    ∀ p ∈ format_row_parts (col_widths headers rows) aligns row, p.count '|' = 0 := by
  intro p hp
  unfold format_row_parts at hp
  rcases List.mem_map.mp hp with ⟨i, hi, hpe⟩
  rw [← hpe, count_format_cell _ _ _ (by decide : ('|' : Char) ≠ ' ')]
  rcases getD_default_or_mem row i [] with h | h
  · rw [h]
    rfl
  · exact List.count_eq_zero.mpr (hfree _ h)

theorem numFields_format_row (headers : List Str) (rows : List (List Str)) (aligns : List Str)
    (row : List Str) (hc : 0 < headers.length) (hfree : ∀ cell ∈ row, '|' ∉ cell) :
    numFields (format_row (col_widths headers rows) aligns row) = headers.length := by
  unfold numFields format_row
  have hne : format_row_parts (col_widths headers rows) aligns row ≠ [] := by
    intro hemp
    have hl := format_row_parts_length (col_widths headers rows) aligns row
    rw [hemp, col_widths_length] at hl
    simp at hl
    omega
  rw [count_pipe_line _ hne (format_row_parts_pipe_free headers rows aligns row hfree),
    format_row_parts_length, col_widths_length]
  omega

theorem numFields_align_row (headers : List Str) (rows : List (List Str)) (aligns : List Str)
    (hc : 0 < headers.length) :
    numFields (align_row (col_widths headers rows) aligns) = headers.length := by
  unfold numFields align_row
  have hne : align_row_cells (col_widths headers rows) aligns ≠ [] := by
    intro hemp
    have hl := align_row_cells_length (col_widths headers rows) aligns
    rw [hemp, col_widths_length] at hl
    simp at hl
    omega
  have hfree : ∀ p ∈ align_row_cells (col_widths headers rows) aligns, p.count '|' = 0 := by
    intro p hp
    unfold align_row_cells at hp
    rcases List.mem_map.mp hp with ⟨i, hi, hpe⟩
    rw [← hpe]
    exact count_pipe_align_pattern _ _
  rw [count_pipe_line _ hne hfree, align_row_cells_length, col_widths_length]
  omega

/-- Claim C4 counterexample: with the single header `a|b`, no data rows and a
left alignment, the rendered header line has 2 pipe-delimited fields while the
header count is 1, so the field count is not preserved for all inputs. -/
theorem claim_C4_counterexample :
    ¬ ∀ line ∈ table_lines ["a|b".toList] [] ["left".toList],
        numFields line = List.length ["a|b".toList] := by
  decide

/-- Claim C4 as amended: for every table with at least one column whose headers
and cells contain no pipe character, every rendered line — each content row and
the alignment row — has exactly `len(headers)` pipe-delimited fields. -/
theorem claim_C4_amended (headers : List Str) (rows : List (List Str)) (aligns : List Str)
    (hc : 0 < headers.length)
    (hh : ∀ cell ∈ headers, '|' ∉ cell)
    (hr : ∀ r ∈ rows, ∀ cell ∈ r, '|' ∉ cell) :
    ∀ line ∈ table_lines headers rows aligns, numFields line = headers.length := by
  intro line hline
  have htl : table_lines headers rows aligns =
      format_row (col_widths headers rows) aligns headers ::
        align_row (col_widths headers rows) aligns ::
        rows.map (format_row (col_widths headers rows) aligns) := rfl
  rw [htl] at hline
  rcases List.mem_cons.mp hline with h | h
  · rw [h]
    exact numFields_format_row headers rows aligns headers hc hh
  · rcases List.mem_cons.mp h with h2 | h2
    · rw [h2]
      exact numFields_align_row headers rows aligns hc
    · rcases List.mem_map.mp h2 with ⟨r, hrmem, hre⟩
      rw [← hre]
      exact numFields_format_row headers rows aligns r hc (hr r hrmem)

theorem claim_C4_witness :
    0 < List.length ["a".toList] ∧
    numFields ((table_lines ["a".toList] [] []).getD 0 []) = List.length ["a".toList] :=
  ⟨by decide,
    claim_C4_amended ["a".toList] [] [] (by decide) (by decide) (by decide)
      ((table_lines ["a".toList] [] []).getD 0 []) (by decide)⟩

/-- Claim C5: normalization of a row against headers of length `C` yields a row
of length exactly `C`, padding a short row on the right with empty cells and
dropping the trailing excess of a long row; with `C = 3` the rows `[x, y]` and
`[x, y, z, w]` normalize to `[x, y, ""]` and `[x, y, z]`. -/
theorem claim_C5 (headers : List Str) (r : List Str) :
    (normalize_row headers.length r).length = headers.length
    ∧ (r.length ≤ headers.length →
        normalize_row headers.length r = r ++ List.replicate (headers.length - r.length) [])
    ∧ (headers.length ≤ r.length → normalize_row headers.length r = r.take headers.length)
    ∧ normalize_row 3 ["x".toList, "y".toList] = ["x".toList, "y".toList, []]
    ∧ normalize_row 3 ["x".toList, "y".toList, "z".toList, "w".toList] =
        ["x".toList, "y".toList, "z".toList] := by
  refine ⟨?_, ?_, ?_, by decide, by decide⟩
  · unfold normalize_row
    rw [List.length_take, List.length_append, List.length_replicate]
    omega
  · intro h
    unfold normalize_row
    apply List.take_of_length_le
    rw [List.length_append, List.length_replicate]
    omega
  · intro h
    unfold normalize_row
    rw [Nat.sub_eq_zero_of_le h, List.replicate_zero, List.append_nil]

theorem claim_C5_witness :
    List.length ["x".toList] ≤ List.length ["a".toList, "b".toList] ∧
    normalize_row (List.length ["a".toList, "b".toList]) ["x".toList] =
      ["x".toList] ++
        List.replicate (List.length ["a".toList, "b".toList] - List.length ["x".toList]) [] :=
  ⟨by decide, (claim_C5 ["a".toList, "b".toList] ["x".toList]).2.1 (by decide)⟩

/-- Claim C6: normalization is idempotent — when every row already has exactly
`len(headers)` cells, normalizing returns the rows unchanged. -/
theorem claim_C6 (headers : List Str) (rows : List (List Str))
    (hlen : ∀ r ∈ rows, r.length = headers.length) :
    normalize_rows headers rows = rows := by
  unfold normalize_rows
  have h2 : rows.map (normalize_row headers.length) = rows.map id := by
    apply List.map_congr_left
    intro r hrmem
    show normalize_row headers.length r = r
    unfold normalize_row
    rw [← hlen r hrmem]
    simp [List.take_length]
  rw [h2, List.map_id]

theorem claim_C6_witness :
    normalize_rows ["h".toList] [["p".toList], ["q".toList]] = [["p".toList], ["q".toList]] :=
  claim_C6 ["h".toList] [["p".toList], ["q".toList]] (by decide)

/-- Claim C7: the rendered string is the header row, the alignment row and the
data rows in order, every line followed by exactly one line-break character —
so consecutive lines are separated by a single line break, one trailing line
break ends the output, and with zero data rows the output is exactly the two
lines (header and alignment row) plus the trailing line break. -/
theorem claim_C7 (headers : List Str) (rows : List (List Str)) (aligns : List Str)
    (_hc : 0 < headers.length) :
    generate_markdown_table headers rows aligns =
      ((table_lines headers rows aligns).map (fun line => line ++ "\n".toList)).flatten
    ∧ (rows = [] →
        generate_markdown_table headers rows aligns =
          format_row (col_widths headers rows) aligns headers ++
            '\n' :: (align_row (col_widths headers rows) aligns ++ ['\n'])) := by
  constructor
  · unfold generate_markdown_table
    rw [show table_lines headers rows aligns =
        format_row (col_widths headers rows) aligns headers ::
          align_row (col_widths headers rows) aligns ::
          rows.map (format_row (col_widths headers rows) aligns) from rfl]
    exact joinSep_nl_flatten _ _
  · intro hrows
    subst hrows
    unfold generate_markdown_table
    rw [show table_lines headers [] aligns =
        [format_row (col_widths headers []) aligns headers,
          align_row (col_widths headers []) aligns] from rfl]
    simp [joinSep, List.append_assoc]

theorem claim_C7_witness :
    0 < List.length ["a".toList] ∧
    generate_markdown_table ["a".toList] [] [] =
      format_row (col_widths ["a".toList] []) [] ["a".toList] ++
        '\n' :: (align_row (col_widths ["a".toList] []) [] ++ ['\n']) :=
  ⟨by decide, (claim_C7 ["a".toList] [] [] (by decide)).2 rfl⟩

/-- Claim C8: on the fallback path the sniffer scans the first line of the
input for the candidate delimiters in the priority order comma, tab,
semicolon, pipe, returns the first candidate present in that line, returns a
comma when none of the four is present, and always returns exactly one
delimiter character. -/
theorem claim_C8 (text : Str) :
    (',' ∈ header_line text → fallback_delimiter text = ',')
    ∧ (',' ∉ header_line text → '\t' ∈ header_line text → fallback_delimiter text = '\t')
    ∧ (',' ∉ header_line text → '\t' ∉ header_line text → ';' ∈ header_line text →
        fallback_delimiter text = ';')
    ∧ (',' ∉ header_line text → '\t' ∉ header_line text → ';' ∉ header_line text →
        '|' ∈ header_line text → fallback_delimiter text = '|')
    ∧ (',' ∉ header_line text → '\t' ∉ header_line text → ';' ∉ header_line text →
        '|' ∉ header_line text → fallback_delimiter text = ',')
    ∧ fallback_delimiter text ∈ [',', '\t', ';', '|'] := by
  refine ⟨?_, ?_, ?_, ?_, ?_, ?_⟩
  · intro h1
    simp [fallback_delimiter, h1]
  · intro h1 h2
    simp [fallback_delimiter, h1, h2]
  · intro h1 h2 h3
    simp [fallback_delimiter, h1, h2, h3]
  · intro h1 h2 h3 h4
    simp [fallback_delimiter, h1, h2, h3, h4]
  · intro h1 h2 h3 h4
    simp [fallback_delimiter, h1, h2, h3, h4]
  · simp only [fallback_delimiter]
    split_ifs
    all_goals simp

theorem claim_C8_witness :
    ',' ∈ header_line "a,b\nc;d".toList ∧ fallback_delimiter "a,b\nc;d".toList = ',' :=
  ⟨by decide, (claim_C8 "a,b\nc;d".toList).1 (by decide)⟩

/-- Claim C9: for a table with at least one column, the header line and every
data line have the same character length, namely one plus three times the
column count plus the sum of the computed column widths. -/
theorem claim_C9 (headers : List Str) (rows : List (List Str)) (aligns : List Str)
    (hc : 0 < headers.length) (row : List Str) (hrow : row = headers ∨ row ∈ rows) :
    (format_row (col_widths headers rows) aligns row).length =
      1 + 3 * headers.length + (col_widths headers rows).sum :=
  format_row_length_eq headers rows aligns row hrow hc

theorem claim_C9_witness :
    0 < List.length ["ab".toList] ∧
    (format_row (col_widths ["ab".toList] [["x".toList]]) [] ["ab".toList]).length =
      1 + 3 * List.length ["ab".toList] + (col_widths ["ab".toList] [["x".toList]]).sum :=
  ⟨by decide,
    claim_C9 ["ab".toList] [["x".toList]] [] (by decide) ["ab".toList] (Or.inl rfl)⟩

/-- Claim C10: for a column index below the header count, when `aligns` is too
short to cover the column or holds any string other than `right` or `center`
there, the column is rendered left-aligned both in the content rows (the cell
is left-justified) and in the alignment row (the token is the left token);
rendering is total on such inputs. -/
theorem claim_C10 (headers : List Str) (rows : List (List Str)) (aligns : List Str)
    (row : List Str) (i : Nat) (hi : i < headers.length)
    (hal : aligns.length ≤ i ∨
      (aligns.getD i "left".toList ≠ "right".toList ∧
        aligns.getD i "left".toList ≠ "center".toList)) :
    (format_row_parts (col_widths headers rows) aligns row).getD i [] =
      ljust (row.getD i []) ((col_widths headers rows).getD i 0)
    ∧ (align_row_cells (col_widths headers rows) aligns).getD i [] =
      align_pattern "left".toList ((col_widths headers rows).getD i 0) := by
  have hcw : i < (col_widths headers rows).length := by
    rw [col_widths_length]
    exact hi
  have hne : aligns.getD i "left".toList ≠ "right".toList ∧
      aligns.getD i "left".toList ≠ "center".toList := by
    rcases hal with h | h
    · rw [List.getD_eq_default aligns _ h]
      exact ⟨by decide, by decide⟩
    · exact h
  constructor
  · rw [format_row_parts_getD _ _ _ hcw,
      format_cell_not_right_center _ _ _ hne.1 hne.2]
  · rw [align_row_cells_getD _ _ hcw,
      align_pattern_not_right_center _ _ hne.1 hne.2]

theorem claim_C10_witness :
    0 < List.length ["ab".toList] ∧
    (format_row_parts (col_widths ["ab".toList] []) [] ["q".toList]).getD 0 [] =
      ljust ("q".toList) ((col_widths ["ab".toList] []).getD 0 0) ∧
    (align_row_cells (col_widths ["ab".toList] []) []).getD 0 [] =
      align_pattern "left".toList ((col_widths ["ab".toList] []).getD 0 0) :=
  ⟨by decide,
    claim_C10 ["ab".toList] [] [] ["q".toList] 0 (by decide) (Or.inl (by decide))⟩

/-- Worked example of the spec: the two-column table with headers Name and
Age, two data rows and left/right alignment renders exactly as printed in the
spec, section 8. -/
theorem spec_worked_example :
    generate_markdown_table ["Name".toList, "Age".toList]
      [["Alice".toList, "30".toList], ["Bo".toList, "7".toList]]
      ["left".toList, "right".toList] =
    ("| Name  | Age |\n| :---- | --: |\n| Alice |  30 |\n| Bo    |   7 |\n").toList := by
  decide

end MarkdownTable
